import Mathlib

/-!
Verification of the PromptGuard test-execution engine against its design
specification.  The definitions below are a shallow embedding of the Go
sources: `internal/assertions/assertions.go`, the runner package
(`Runner.Run`, `Runner.runSingleTest`, `Runner.generateTestCases`,
`Runner.filterTestCases`, `Runner.runAssertion`), `internal/config/config.go`
(`Config.GetProvider`) and `internal/diff/diff.go`
(`MarkdownDiffer.GenerateBaselineComparison`).

Modelling conventions:
- Go `float64` values (costs, scores, thresholds) are modelled as `Rat`;
  no claim depends on IEEE rounding.
- Go `interface{}` values are modelled by the inductive `GoValue`.
- External collaborators (filesystem prompt loading, template rendering,
  provider-client construction, the network completion call, the clock)
  are oracles collected in `Env`, as §6 of the spec prescribes.
- `strings.ToLower` is modelled by `goToLower` (per-character ASCII
  lowering), which agrees with Go on ASCII input; all inputs exercised
  by the claims are ASCII.  Go struct fields named `Variables` are
  modelled as `vars` (their YAML tag), since `variables` is a reserved
  token in Lean.
-/

/-- Models Go `strings.HasPrefix` on character lists: `leadsL needle l`
is true when `needle` is an initial segment of `l`. -/
def leadsL : List Char → List Char → Bool
  | [], _ => true
  | x :: xs, ys =>
    match ys with
    | [] => false
    | y :: ytail => x == y && leadsL xs ytail

/-- The test `hasSubL needle hay` is true when `needle` occurs as a contiguous
sub-list of `hay`; models Go `strings.Contains(hay, needle)`. -/
def hasSubL (needle : List Char) : List Char → Bool
  | [] => leadsL needle []
  | c :: t => leadsL needle (c :: t) || hasSubL needle t

/-- Models Go `strings.Contains(hay, needle)`. -/
def strContains (hay needle : String) : Bool :=
  hasSubL needle.data hay.data

/-- Accumulator worker for `goFields`: splits on whitespace, dropping
empty fields, accumulating the current field in reverse. -/
def goFieldsL : List Char → List Char → List (List Char)
  | acc, [] => if acc == [] then [] else [acc.reverse]
  | acc, c :: cs =>
    if c.isWhitespace then
      if acc == [] then goFieldsL [] cs else acc.reverse :: goFieldsL [] cs
    else goFieldsL (c :: acc) cs

/-- Models Go `strings.Fields`: the whitespace-separated words of `s`.
(Go splits on Unicode white space; this agrees on ASCII input.) -/
def goFields (s : String) : List String :=
  (goFieldsL [] s.data).map String.mk

example : goFields "  pro  plan x " = ["pro", "plan", "x"] := by decide
example : strContains "the pro plan" "pro" = true := by decide
example : strContains "the plan" "pro" = false := by decide

/-- Models a Go `interface{}` value as produced by YAML/JSON decoding:
nil, bool, float64, string, `[]interface{}` or `map[string]interface{}`. -/
inductive GoValue where
  | vnull : GoValue
  | vbool : Bool → GoValue
  | vnum : Rat → GoValue
  | vstr : String → GoValue
  | varr : List GoValue → GoValue
  | vmap : List (String × GoValue) → GoValue

/-- Models a decoded JSON document as produced by `json.Unmarshal` into
`interface{}`: null, bool, number (float64, modelled exactly as `Rat`),
string, array or object. -/
inductive JValue where
  | jnull : JValue
  | jbool : Bool → JValue
  | jnum : Rat → JValue
  | jstr : String → JValue
  | jarr : List JValue → JValue
  | jobj : List (String × JValue) → JValue

/-- Skips JSON insignificant whitespace (space, tab, newline, return). -/
def skipWs : List Char → List Char
  | [] => []
  | c :: cs =>
    if c == ' ' || c == '\t' || c == '\n' || c == '\r' then skipWs cs
    else c :: cs

/-- Hexadecimal digit value, if any. -/
def hexVal (c : Char) : Option Nat :=
  if '0' ≤ c ∧ c ≤ '9' then some (c.toNat - '0'.toNat)
  else if 'a' ≤ c ∧ c ≤ 'f' then some (c.toNat - 'a'.toNat + 10)
  else if 'A' ≤ c ∧ c ≤ 'F' then some (c.toNat - 'F'.toNat + 10)
  else none

/-- Single-character JSON string escapes. -/
def escChar (c : Char) : Option Char :=
  [('"', '"'), ('\\', '\\'), ('/', '/'), ('b', Char.ofNat 8)
    , ('f', Char.ofNat 12), ('n', '\n'), ('r', '\r'), ('t', '\t')].lookup c

/-- Parses the body of a JSON string (after the opening quote) up to and
including the closing quote, returning the decoded characters and the
rest of the input.  Raw control characters are rejected, as in Go. -/
def parseStrL (fuel : Nat) (l : List Char) : Option (List Char × List Char) :=
  match fuel, l with
  | 0, _ => none
  | _, [] => none
  | Nat.succ fuel, c :: cs =>
    if c == '"' then some ([], cs)
    else if c.toNat < 32 then none
    else if c == '\\' then
      match cs with
      | [] => none
      | e :: cs2 =>
        if e == 'u' then
          match cs2 with
          | h1 :: h2 :: h3 :: h4 :: cs3 =>
            match hexVal h1, hexVal h2, hexVal h3, hexVal h4 with
            | some a, some b, some cH, some d =>
              match parseStrL fuel cs3 with
              | some (s, r) =>
                some (Char.ofNat (((a * 16 + b) * 16 + cH) * 16 + d) :: s, r)
              | none => none
            | _, _, _, _ => none
          | _ => none
        else
          match escChar e with
          | some ec =>
            match parseStrL fuel cs2 with
            | some (s, r) => some (ec :: s, r)
            | none => none
          | none => none
    else
      match parseStrL fuel cs with
      | some (s, r) => some (c :: s, r)
      | none => none

/-- The longest initial run of decimal digits, and the rest. -/
def spanDigits : List Char → List Char × List Char
  | [] => ([], [])
  | c :: cs =>
    if c.isDigit then
      let (d, r) := spanDigits cs
      (c :: d, r)
    else ([], c :: cs)

/-- Numeric value of a digit run. -/
def digitsToNat : List Char → Nat
  | [] => 0
  | c :: cs => digitsToNat cs + (c.toNat - '0'.toNat) * 10 ^ cs.length

/-- Parses a JSON number per the JSON grammar
`-?(0|[1-9][0-9]*)(\.[0-9]+)?([eE][+-]?[0-9]+)?`, returning its exact
rational value and the rest of the input. -/
def parseNumber (l : List Char) : Option (Rat × List Char) :=
  let (neg, l1) := match l with
    | '-' :: r => (true, r)
    | _ => (false, l)
  let ip : Option (Nat × List Char) := match l1 with
    | '0' :: r => some (0, r)
    | c :: _ =>
      if c.isDigit then
        let (d, r) := spanDigits l1
        some (digitsToNat d, r)
      else none
    | [] => none
  match ip with
  | none => none
  | some (intPart, l2) =>
    -- fractional digits, as (digit value, number of digits)
    let fp : Option (Nat × Nat × List Char) := match l2 with
      | '.' :: r =>
        let (d, r2) := spanDigits r
        if d == [] then none
        else some (digitsToNat d, d.length, r2)
      | _ => some (0, 0, l2)
    match fp with
    | none => none
    | some (fracVal, fracLen, l3) =>
      -- exponent, as (negated?, magnitude)
      let ep : Option (Bool × Nat × List Char) := match l3 with
        | 'e' :: r | 'E' :: r =>
          let (esign, r1) := match r with
            | '+' :: r2 => (false, r2)
            | '-' :: r2 => (true, r2)
            | _ => (false, r)
          let (d, r2) := spanDigits r1
          if d == [] then none else some (esign, digitsToNat d, r2)
        | _ => some (false, 0, l3)
      match ep with
      | none => none
      | some (esign, emag, l4) =>
        -- (intPart.fracVal) * 10^±emag as an exact rational
        let numerator := intPart * 10 ^ fracLen + fracVal
        let numerator := if esign then numerator else numerator * 10 ^ emag
        let denominator := if esign then 10 ^ fracLen * 10 ^ emag else 10 ^ fracLen
        let v := mkRat (if neg then -(numerator : Int) else numerator) denominator
        some (v, l4)

mutual

/-- Recursive-descent JSON value parser (fuel-indexed); models
`json.Unmarshal` decoding into `interface{}`. -/
def parseValue : Nat → List Char → Option (JValue × List Char)
  | 0, _ => none
  | Nat.succ fuel, l =>
    match skipWs l with
    | [] => none
    | c :: cs =>
      if c == '\x7b' then
        match parseMembers fuel cs true with
        | some (fs, rest) => some (JValue.jobj fs, rest)
        | none => none
      else if c == '[' then
        match parseElems fuel cs true with
        | some (xs, rest) => some (JValue.jarr xs, rest)
        | none => none
      else if c == '"' then
        match parseStrL (cs.length + 1) cs with
        | some (s, rest) => some (JValue.jstr (String.mk s), rest)
        | none => none
      else if c == 't' then
        match cs with
        | 'r' :: 'u' :: 'e' :: rest => some (JValue.jbool true, rest)
        | _ => none
      else if c == 'f' then
        match cs with
        | 'a' :: 'l' :: 's' :: 'e' :: rest => some (JValue.jbool false, rest)
        | _ => none
      else if c == 'n' then
        match cs with
        | 'u' :: 'l' :: 'l' :: rest => some (JValue.jnull, rest)
        | _ => none
      else
        match parseNumber (c :: cs) with
        | some (q, rest) => some (JValue.jnum q, rest)
        | none => none

/-- Parses the members of a JSON object after the opening brace;
`allowEmpty` is true only directly after the brace, so a trailing comma
is rejected. -/
def parseMembers : Nat → List Char → Bool →
    Option (List (String × JValue) × List Char)
  | 0, _, _ => none
  | Nat.succ fuel, l, allowEmpty =>
    match skipWs l with
    | '\x7d' :: rest => if allowEmpty then some ([], rest) else none
    | '"' :: cs =>
      match parseStrL (cs.length + 1) cs with
      | none => none
      | some (key, r1) =>
        match skipWs r1 with
        | ':' :: r2 =>
          match parseValue fuel r2 with
          | none => none
          | some (v, r3) =>
            match skipWs r3 with
            | ',' :: r4 =>
              match parseMembers fuel r4 false with
              | some (fs, rest) => some ((String.mk key, v) :: fs, rest)
              | none => none
            | '\x7d' :: r4 => some ([(String.mk key, v)], r4)
            | _ => none
        | _ => none
    | _ => none

/-- Parses the elements of a JSON array after the opening bracket. -/
def parseElems : Nat → List Char → Bool →
    Option (List JValue × List Char)
  | 0, _, _ => none
  | Nat.succ fuel, l, allowEmpty =>
    match skipWs l with
    | ']' :: rest => if allowEmpty then some ([], rest) else none
    | l1 =>
      match parseValue fuel l1 with
      | none => none
      | some (v, r1) =>
        match skipWs r1 with
        | ',' :: r2 =>
          match parseElems fuel r2 false with
          | some (xs, rest) => some (v :: xs, rest)
          | none => none
        | ']' :: r2 => some ([v], r2)
        | _ => none

end

/-- Models `json.Unmarshal(data, &v)` for `v : interface{}`: the whole
input must be one JSON value surrounded only by whitespace. -/
def unmarshal (s : String) : Option JValue :=
  match parseValue (2 * s.data.length + 2) s.data with
  | some (v, rest) => if skipWs rest == [] then some v else none
  | none => none

example : (unmarshal "\x7b\"a\":1\x7d").isSome = true := by decide
example : (unmarshal "\x7b\"a\":\x7b\"b\":\x7b\"c\":1\x7d\x7d\x7d").isSome = true := by decide
example : (unmarshal "\x7b\"a\":1").isNone = true := by decide
example : (unmarshal "nope").isNone = true := by decide
example : (unmarshal " [1, 2.5e1, \"x\", true, null] ").isSome = true := by decide

/-- The longest initial run of non-brace characters, and the rest;
models the regex atom `[^{}]*`. -/
def spanNonBrace : List Char → List Char × List Char
  | [] => ([], [])
  | c :: cs =>
    if c == '\x7b' || c == '\x7d' then ([], c :: cs)
    else
      let (a, r) := spanNonBrace cs
      (c :: a, r)

/-- Matches the tail `(\{[^{}]*\}[^{}]*)*\}` of the brace regex in
`extractJSON`, returning the consumed characters and the rest.  For this
regex the match at a given position is unique, so no backtracking is
needed. -/
def matchBraceGroups : Nat → List Char → Option (List Char × List Char)
  | 0, _ => none
  | Nat.succ fuel, l =>
    match l with
    | '\x7d' :: rest => some (['\x7d'], rest)
    | '\x7b' :: rest =>
      let (a, r1) := spanNonBrace rest
      match r1 with
      | '\x7d' :: r2 =>
        let (b, r3) := spanNonBrace r2
        match matchBraceGroups fuel r3 with
        | some (m, rest2) => some ('\x7b' :: (a ++ '\x7d' :: (b ++ m)), rest2)
        | none => none
      | _ => none
    | _ => none

/-- Tries to match the Go regex `\{[^{}]*(?:\{[^{}]*\}[^{}]*)*\}` at the
head of `l`; on success returns the matched characters and the rest. -/
def matchAt (l : List Char) : Option (List Char × List Char) :=
  match l with
  | '\x7b' :: rest =>
    let (a, r1) := spanNonBrace rest
    match matchBraceGroups (r1.length + 1) r1 with
    | some (m, rest2) => some ('\x7b' :: (a ++ m), rest2)
    | none => none
  | _ => none

/-- Models `regexp.FindAllString(text, -1)` for the brace regex: scans
left to right, taking the leftmost matches non-overlappingly. -/
def regexFindAll : Nat → List Char → List (List Char)
  | 0, _ => []
  | Nat.succ fuel, l =>
    match l with
    | [] => []
    | _ :: t =>
      match matchAt l with
      | some (m, rest) => m :: regexFindAll fuel rest
      | none => regexFindAll fuel t

/-- Models `extractJSON` (assertions.go): among the regex matches,
return the first that `json.Unmarshal` accepts, else the empty string. -/
def extractJSON (text : String) : String :=
  match (regexFindAll (text.data.length + 1) text.data).find?
      (fun m => (unmarshal (String.mk m)).isSome) with
  | some m => String.mk m
  | none => ""

example : extractJSON "Welcome! \x7b\"a\":1\x7d" = "\x7b\"a\":1\x7d" := by decide
example : extractJSON "no json here" = "" := by decide
example : extractJSON "\x7b\"a\":\x7b\"b\":\x7b\"c\":1\x7d\x7d\x7d"
    = "\x7b\"b\":\x7b\"c\":1\x7d\x7d" := by decide
example : extractJSON "\x7bbad\x7d ok \x7b\"x\": 2\x7d" = "\x7b\"x\": 2\x7d" := by decide

/-- Models `providers.Response`. -/
structure Response where
  text : String
  cost : Rat
  tokens : Nat
  provider : String
  model : String

/-- Models `config.Assertion` (`type`, `value`, `threshold`, `required`). -/
structure Assertion where
  type : String
  value : GoValue
  threshold : Rat
  required : Bool

/-- Models `runner.AssertionResult`.  Go zero values: `Expected`/`Actual`
are nil interfaces (`GoValue.vnull`), `Score` is `0`, `Message` is `""`. -/
structure AssertionResult where
  type : String := ""
  expected : GoValue := GoValue.vnull
  actual : GoValue := GoValue.vnull
  passed : Bool := false
  score : Rat := 0
  message : String := ""

/-- Models Go `strings.ToLower` (restricted to ASCII, on which the two
agree): lower-cases each character. -/
def goToLower (s : String) : String :=
  String.mk (s.data.map Char.toLower)

/-- Models `calculateRelevanceScore` (assertions.go): lower-case both
texts, split the expected content into whitespace-separated words, and
return the fraction of those words (counted with multiplicity) occurring
as substrings of the response text. -/
def calculateRelevanceScore (text expectedContent : String) : Rat :=
  let text := goToLower text
  let expectedContent := goToLower expectedContent
  let words := goFields expectedContent
  let matchCount := (words.filter (fun w => strContains text w)).length
  if words.length = 0 then 0
  else mkRat matchCount words.length

/-- Fixed-point decimal rendering of a rational, modelling Go
`fmt.Sprintf("%.Nf", x)`.  Ties round half away from zero where Go
rounds half to even; no claim depends on a tie. -/
def fmtFixed (digits : Nat) (q : Rat) : String :=
  let sign := if q < 0 then "-" else ""
  let aq := if q < 0 then -q else q
  -- floor(|q|*10^digits + 1/2), computed on numerator and denominator
  let scaled : Nat := (aq.num.toNat * 10 ^ digits * 2 + aq.den) / (2 * aq.den)
  let ipart := scaled / 10 ^ digits
  let fpart := scaled % 10 ^ digits
  let fstr := toString fpart
  let fstr := String.mk (List.replicate (digits - fstr.length) '0') ++ fstr
  if digits = 0 then sign ++ toString ipart
  else sign ++ toString ipart ++ "." ++ fstr

example : fmtFixed 2 (mkRat 7 10) = "0.70" := by decide
example : fmtFixed 4 (mkRat 45 10000) = "0.0045" := by decide
example : fmtFixed 4 0 = "0.0000" := by decide

/-- Models `AnswerRelevanceEvaluator.Evaluate`. -/
def answerRelevanceEvaluate (assertion : Assertion) (response : Response) :
    Except String AssertionResult :=
  match assertion.value with
  | GoValue.vstr expectedValue =>
    let score := calculateRelevanceScore response.text expectedValue
    let threshold := if assertion.threshold = 0 then mkRat 7 10 else assertion.threshold
    let passed := score ≥ threshold
    Except.ok
      { type := "answer-relevance"
        expected := GoValue.vstr expectedValue
        actual := GoValue.vstr response.text
        passed := passed
        score := score
        message := "Relevance score: " ++ fmtFixed 2 score
          ++ " (threshold: " ++ fmtFixed 2 threshold ++ ")" }
  | _ => Except.error "answer-relevance assertion value must be a string"

/-- First-match association lookup; models indexing a Go
`map[string]interface{}` built from unique keys. -/
def lookupGo (key : String) : List (String × GoValue) → Option GoValue
  | [] => none
  | kv :: rest => if kv.1 == key then some kv.2 else lookupGo key rest

/-- The Go `%T` name of the dynamic type behind a decoded JSON value. -/
def goTypeName : JValue → String
  | JValue.jnull => "<nil>"
  | JValue.jbool _ => "bool"
  | JValue.jnum _ => "float64"
  | JValue.jstr _ => "string"
  | JValue.jarr _ => "[]interface \x7b\x7d"
  | JValue.jobj _ => "map[string]interface \x7b\x7d"

/-- Walks a required-fields list in order and reports the first missing
string-typed field name; non-string entries are skipped (`continue`). -/
def firstMissingRequired : List GoValue → List (String × JValue) → Option String
  | [], _ => none
  | f :: rest, dataMap =>
    match f with
    | GoValue.vstr fieldName =>
      if dataMap.any (fun kv => kv.1 == fieldName) then
        firstMissingRequired rest dataMap
      else some fieldName
    | _ => firstMissingRequired rest dataMap

/-- Models `validateJSONSchema` (assertions.go): if the schema object has
a `required` list, the data must be an object containing every
string-typed listed key; returns the error text, or `none` on success. -/
def validateJSONSchema (data : JValue) (schema : List (String × GoValue)) :
    Option String :=
  match lookupGo "required" schema with
  | some (GoValue.varr required) =>
    match data with
    | JValue.jobj dataMap =>
      match firstMissingRequired required dataMap with
      | some fieldName => some ("required field missing: " ++ fieldName)
      | none => none
    | _ => some ("expected object, got " ++ goTypeName data)
  | _ => none

/-- Models `ContainsJSONEvaluator.Evaluate`. -/
def containsJSONEvaluate (assertion : Assertion) (response : Response) :
    Except String AssertionResult :=
  let jsonStr := extractJSON response.text
  let result : AssertionResult :=
    { type := "contains-json"
      expected := assertion.value
      actual := GoValue.vstr jsonStr }
  if jsonStr = "" then
    Except.ok { result with passed := false, message := "No JSON found in response" }
  else
    match unmarshal jsonStr with
    | none =>
      Except.ok { result with passed := false, message := "Invalid JSON" }
    | some parsed =>
      match assertion.value with
      | GoValue.vmap expectedSchema =>
        match validateJSONSchema parsed expectedSchema with
        | some err =>
          Except.ok { result with
            passed := false
            message := "Schema validation failed: " ++ err }
        | none =>
          Except.ok { result with passed := true, message := "Valid JSON found" }
      | _ =>
        -- a nil or non-map expected value skips schema validation
        Except.ok { result with passed := true, message := "Valid JSON found" }

/-- Models `CostEvaluator.Evaluate`. -/
def costEvaluate (assertion : Assertion) (response : Response) :
    Except String AssertionResult :=
  let threshold := assertion.threshold
  let passed := response.cost ≤ threshold
  Except.ok
    { type := "cost"
      expected := GoValue.vnum threshold
      actual := GoValue.vnum response.cost
      passed := passed
      message := "Cost: $" ++ fmtFixed 4 response.cost
        ++ " (threshold: $" ++ fmtFixed 4 threshold ++ ")" }

/-- The fixed denylist of `ToxicityEvaluator.Evaluate`. -/
def toxicKeywords : List String := ["hate", "violence", "offensive", "toxic"]

/-- Models `ToxicityEvaluator.Evaluate`: fails naming the first denylist
keyword occurring (case-insensitively) in the response text. -/
def toxicityEvaluate (_assertion : Assertion) (response : Response) :
    Except String AssertionResult :=
  let text := goToLower response.text
  match toxicKeywords.find? (fun keyword => strContains text keyword) with
  | some keyword =>
    Except.ok
      { type := "toxicity"
        passed := false
        message := "Toxic content detected: " ++ keyword }
  | none =>
    Except.ok
      { type := "toxicity"
        passed := true
        message := "No toxic content detected" }

/-- Models `LLMRubricEvaluator.Evaluate` (unimplemented stub in the code). -/
def llmRubricEvaluate (_assertion : Assertion) (_response : Response) :
    Except String AssertionResult :=
  Except.ok
    { type := "llm-rubric"
      passed := false
      message := "LLM rubric evaluation not yet implemented" }

/-- Models `ClosedQAEvaluator.Evaluate` (unimplemented stub in the code). -/
def closedQAEvaluate (_assertion : Assertion) (_response : Response) :
    Except String AssertionResult :=
  Except.ok
    { type := "closed-qa"
      passed := false
      message := "Closed-QA evaluation not yet implemented" }

/-- Models `JailbreakEvaluator.Evaluate` (unimplemented stub in the code). -/
def jailbreakEvaluate (_assertion : Assertion) (_response : Response) :
    Except String AssertionResult :=
  Except.ok
    { type := "jailbreak"
      passed := true
      message := "Jailbreak detection not yet implemented" }

/-- Models `UnsupportedEvaluator.Evaluate`. -/
def unsupportedEvaluate (assertionType : String) :
    Except String AssertionResult :=
  Except.error ("unsupported assertion type: " ++ assertionType)

/-- Models `NewEvaluator(assertion.Type)` followed by `.Evaluate`:
string-keyed dispatch over the registered assertion kinds. -/
def evaluateAssertion (assertion : Assertion) (response : Response) :
    Except String AssertionResult :=
  if assertion.type = "answer-relevance" then answerRelevanceEvaluate assertion response
  else if assertion.type = "contains-json" then containsJSONEvaluate assertion response
  else if assertion.type = "cost" then costEvaluate assertion response
  else if assertion.type = "llm-rubric" then llmRubricEvaluate assertion response
  else if assertion.type = "closed-qa" then closedQAEvaluate assertion response
  else if assertion.type = "toxicity" then toxicityEvaluate assertion response
  else if assertion.type = "jailbreak" then jailbreakEvaluate assertion response
  else unsupportedEvaluate assertion.type

/-- Models `Runner.runAssertion`: evaluator errors become a failing
`AssertionResult` carrying the error text. -/
def runAssertion (assertion : Assertion) (response : Response) :
    AssertionResult :=
  match evaluateAssertion assertion response with
  | Except.ok result => result
  | Except.error e =>
    { type := assertion.type
      passed := false
      message := "Evaluation error: " ++ e }

/-- Quick checks of the evaluator semantics on the spec's examples. -/
example :
    (runAssertion
      { type := "answer-relevance"
        value := GoValue.vstr "Mention Pro Plan upgrade benefits"
        threshold := 0, required := false }
      { text := "nothing relevant here at all", cost := 0, tokens := 0
        provider := "p", model := "m" }).passed = false := by decide

example :
    (runAssertion
      { type := "answer-relevance"
        value := GoValue.vstr "Mention Pro Plan upgrade benefits"
        threshold := 0, required := false }
      { text := "We MENTION the PRO PLAN UPGRADE BENEFITS", cost := 0
        tokens := 0, provider := "p", model := "m" }).score = 1 := by decide

/-- Models `config.Provider`. -/
structure Provider where
  id : String
  config : List (String × GoValue)

/-- Models `config.Test`. -/
structure Test where
  name : String := ""
  description : String := ""
  vars : List (String × GoValue) := []
  assert : List Assertion := []
  provider : String := ""

/-- Models `config.Config` (the fields the engine reads). -/
structure Config where
  prompts : List String
  providers : List Provider
  tests : List Test

/-- Models `runner.Options` (the fields the engine reads). -/
structure Options where
  parallel : Nat := 1
  filters : List String := []
  commitSHA : String := ""
  prNumber : String := ""

/-- Models `runner.Metadata`. -/
structure Metadata where
  timestamp : String := ""
  commitSHA : String := ""
  prNumber : String := ""
  branch : String := ""
  version : String := ""

/-- Models `runner.TestCase`. -/
structure TestCase where
  name : String
  promptFile : String
  provider : String
  vars : List (String × GoValue)
  test : Test

/-- Models `runner.TestResult`.  Wall-clock `Duration` is not modelled
(kept constant `0`); no claim concerns it. -/
structure TestResult where
  name : String := ""
  promptFile : String := ""
  provider : String := ""
  vars : List (String × GoValue) := []
  response : String := ""
  assertions : List AssertionResult := []
  cost : Rat := 0
  duration : Nat := 0
  status : String := ""
  error : String := ""

/-- Models `runner.Results`. -/
structure Results where
  total : Nat := 0
  passed : Nat := 0
  failed : Nat := 0
  skipped : Nat := 0
  totalCost : Rat := 0
  testResults : List TestResult := []
  metadata : Metadata := {}

/-- Models `prompts.Prompt` as the engine sees it (the parsed template
itself is behind the render oracle). -/
structure Prompt where
  content : String

/-- Models a constructed `providers.Client` handle. -/
structure Client where
  name : String
  model : String

/-- The external collaborators of the engine (spec §6), as oracles:
filesystem prompt loading, template rendering, provider-client
construction (environment credentials), the network completion call,
and the clock. -/
structure Env where
  loadPrompt : String → Except String Prompt
  render : Prompt → List (String × GoValue) → Except String String
  newClient : Provider → Except String Client
  complete : Client → String → Except String Response
  now : String

/-- Models `Config.GetProvider`: first provider with the requested id,
else an error naming it. -/
def getProvider (cfg : Config) (id : String) : Except String Provider :=
  match cfg.providers.find? (fun provider => provider.id == id) with
  | some provider => Except.ok provider
  | none => Except.error ("provider not found: " ++ id)

/-- Builds one `TestCase` from a prompt file and the `i`-th test spec;
models the body of the inner loop of `Runner.generateTestCases`:
an unset provider defaults to the first configured provider, and an
unset name becomes `"<promptFile>_test_<i>"`. -/
def mkTestCase (cfg : Config) (promptFile : String) (i : Nat) (test : Test) :
    TestCase :=
  -- provider := test.Provider; if empty and len(Providers) > 0, Providers[0].ID
  let provider :=
    match cfg.providers with
    | [] => test.provider
    | p :: _ => if test.provider = "" then p.id else test.provider
  let testName :=
    if test.name = "" then promptFile ++ "_test_" ++ toString i else test.name
  { name := testName
    promptFile := promptFile
    provider := provider
    vars := test.vars
    test := test }

/-- Models `Runner.generateTestCases`.  The Go code iterates the
`promptFiles` **map**, so the order of prompt files is the map's
iteration order, passed here explicitly as `promptOrder`; for each
prompt file the test specs are appended in declaration order. -/
def generateTestCases (cfg : Config) (promptOrder : List String) :
    List TestCase :=
  promptOrder.foldl
    (fun acc promptFile =>
      acc ++ (cfg.tests.enum.map (fun p => mkTestCase cfg promptFile p.1 p.2)))
    []

/-- Models `Runner.filterTestCases`: the body is a TODO stub that
returns its input unchanged. -/
def filterTestCases (_opts : Options) (testCases : List TestCase) :
    List TestCase :=
  testCases

/-- The per-case pipeline of `Runner.runSingleTest` up to and including
the provider completion call: load, render, resolve provider, construct
client, complete. -/
def completionOf (env : Env) (cfg : Config) (testCase : TestCase) :
    Except String Response :=
  match env.loadPrompt testCase.promptFile with
  | Except.error e => Except.error e
  | Except.ok prompt =>
    match env.render prompt testCase.vars with
    | Except.error e => Except.error e
    | Except.ok renderedPrompt =>
      match getProvider cfg testCase.provider with
      | Except.error e => Except.error e
      | Except.ok providerConfig =>
        match env.newClient providerConfig with
        | Except.error e => Except.error e
        | Except.ok client => env.complete client renderedPrompt

/-- Models `Runner.runSingleTest`: the result starts as a failed,
empty-assertions record; each pipeline failure returns it with a
populated error; a successful completion runs the assertions and sets
the status to passed exactly when all of them passed. -/
def runSingleTest (env : Env) (cfg : Config) (testCase : TestCase) :
    TestResult :=
  let result : TestResult :=
    { name := testCase.name
      promptFile := testCase.promptFile
      provider := testCase.provider
      vars := testCase.vars
      duration := 0
      status := "failed"
      assertions := [] }
  match env.loadPrompt testCase.promptFile with
  | Except.error e => { result with error := "Failed to load prompt: " ++ e }
  | Except.ok prompt =>
    match env.render prompt testCase.vars with
    | Except.error e => { result with error := "Failed to render prompt: " ++ e }
    | Except.ok renderedPrompt =>
      match getProvider cfg testCase.provider with
      | Except.error e => { result with error := "Provider not found: " ++ e }
      | Except.ok providerConfig =>
        match env.newClient providerConfig with
        | Except.error e =>
          { result with error := "Failed to create provider client: " ++ e }
        | Except.ok client =>
          match env.complete client renderedPrompt with
          | Except.error e =>
            { result with error := "Failed to execute prompt: " ++ e }
          | Except.ok response =>
            let assertionResults :=
              testCase.test.assert.map (fun a => runAssertion a response)
            let allPassed := assertionResults.all (fun ar => ar.passed)
            { result with
              response := response.text
              cost := response.cost
              assertions := assertionResults
              status := if allPassed then "passed" else "failed" }

/-- Models the result-collection loop of `Runner.Run`: append each
arriving result, accumulate its cost, and bump the counter matching its
status (`switch` with no default case). -/
def aggregateLoop : List TestResult → Results → Results
  | [], acc => acc
  | r :: rest, acc =>
    let acc1 := { acc with
      testResults := acc.testResults ++ [r]
      totalCost := acc.totalCost + r.cost }
    let acc2 :=
      if r.status = "passed" then { acc1 with passed := acc1.passed + 1 }
      else if r.status = "failed" then { acc1 with failed := acc1.failed + 1 }
      else if r.status = "skipped" then { acc1 with skipped := acc1.skipped + 1 }
      else acc1
    aggregateLoop rest acc2

/-- The `Results` value `Runner.Run` builds before collecting:
`Total` is the number of (filtered) test cases, counters are zero,
metadata carries the clock and options. -/
def initResults (total : Nat) (opts : Options) (now : String) : Results :=
  { total := total
    passed := 0
    failed := 0
    skipped := 0
    totalCost := 0
    testResults := []
    metadata :=
      { timestamp := now
        commitSHA := opts.commitSHA
        prNumber := opts.prNumber
        branch := ""
        version := "0.1.0" } }

/-- The test cases `Runner.Run` dispatches: the generated cross product,
passed through `filterTestCases` when any filter is set. -/
def testCasesOf (cfg : Config) (opts : Options) (promptOrder : List String) :
    List TestCase :=
  let testCases := generateTestCases cfg promptOrder
  if opts.filters = [] then testCases else filterTestCases opts testCases

/-- The `Results` value built by `Runner.Run` for a given map-iteration
order of the prompt files and a given arrival order of the channel. -/
def runResultOf (env : Env) (cfg : Config) (opts : Options)
    (promptOrder : List String) (arrival : List TestResult) : Results :=
  aggregateLoop arrival
    (initResults (testCasesOf cfg opts promptOrder).length opts env.now)

/-- Proposition `RunProduces env cfg opts res` holds exactly when a complete run of
`Runner.Run` can return `res`: prompts all load (otherwise `Run` returns
an error and no `RunResult`), the prompt files are enumerated in some
map-iteration order, and the channel delivers the one result per case in
some arrival order.  (Prompt paths are assumed distinct, as duplicates
collapse in the Go map.) -/
def RunProduces (env : Env) (cfg : Config) (opts : Options) (res : Results) :
    Prop :=
  ∃ promptOrder arrival,
    List.Perm promptOrder cfg.prompts ∧
    (∀ f ∈ cfg.prompts, ∃ p, env.loadPrompt f = Except.ok p) ∧
    List.Perm arrival
      ((testCasesOf cfg opts promptOrder).map (runSingleTest env cfg)) ∧
    res = runResultOf env cfg opts promptOrder arrival

/-- Models `formatChange` (diff.go). -/
def formatChange (change : Int) : String :=
  if change > 0 then "🔺 +" ++ toString change
  else if change < 0 then "🔽 " ++ toString change
  else "➖ 0"

/-- Models `formatCostChange` (diff.go). -/
def formatCostChange (change : Rat) : String :=
  if change > mkRat 1 10000 then "🔺 +$" ++ fmtFixed 4 change
  else if change < -(mkRat 1 10000) then "🔽 -$" ++ fmtFixed 4 (-change)
  else "➖ $0.0000"

/-- The regression/improvement classification fragment appended by
`MarkdownDiffer.GenerateBaselineComparison` (diff.go lines 189-193):
the regression banner when `current.Failed > baseline.Failed`, the
improvement banner when `<`, nothing when equal. -/
def regressionBlock (current baseline : Results) : String :=
  if current.failed > baseline.failed then
    "\n🚨 **REGRESSION DETECTED** - More tests failing than baseline!\n\n"
  else if current.failed < baseline.failed then
    "\n✅ **IMPROVEMENT** - Fewer test failures than baseline!\n\n"
  else ""

/-- The cost-alert fragment of `GenerateBaselineComparison`; the Go
float division by a zero baseline cost (yielding `+Inf`) is not
modelled — no claim touches the alert's percentage text. -/
def costAlertBlock (current baseline : Results) : String :=
  let costChange := current.totalCost - baseline.totalCost
  if costChange > mkRat 1 1000 then
    "💸 **COST ALERT** - Cost increased by $" ++ fmtFixed 4 costChange
      ++ " (" ++ fmtFixed 1 (costChange / baseline.totalCost * 100) ++ "%)\n\n"
  else ""

/-- Models `MarkdownDiffer.GenerateBaselineComparison`: header, the
summary-changes table, then the classification and cost-alert
fragments. -/
def generateBaselineComparison (current baseline : Results) : String :=
  let passedChange : Int := (current.passed : Int) - (baseline.passed : Int)
  let failedChange : Int := (current.failed : Int) - (baseline.failed : Int)
  let costChange : Rat := current.totalCost - baseline.totalCost
  "# 📊 Baseline Comparison Report\n\n"
    ++ "## 📈 Summary Changes\n\n"
    ++ "| Metric | Baseline | Current | Change |\n"
    ++ "|--------|----------|---------|--------|\n"
    ++ "| Passed | " ++ toString baseline.passed ++ " | "
      ++ toString current.passed ++ " | " ++ formatChange passedChange ++ " |\n"
    ++ "| Failed | " ++ toString baseline.failed ++ " | "
      ++ toString current.failed ++ " | " ++ formatChange failedChange ++ " |\n"
    ++ "| Cost | $" ++ fmtFixed 4 baseline.totalCost ++ " | $"
      ++ fmtFixed 4 current.totalCost ++ " | " ++ formatCostChange costChange
      ++ " |\n"
    ++ regressionBlock current baseline
    ++ costAlertBlock current baseline

/-- The lifecycle of one dispatched goroutine in `Runner.Run`:
`started` — launched, not yet holding a semaphore slot;
`running` — holding a slot, executing `runSingleTest`;
`done` — result sent and slot released. -/
inductive TaskPhase where
  | started : TaskPhase
  | running : TaskPhase
  | done : TaskPhase
deriving DecidableEq

/-- State of the worker pool of `Runner.Run`: the phase of each
dispatched goroutine and the results delivered to the channel so far. -/
structure PoolState where
  phases : List TaskPhase
  sent : List TestResult

/-- Number of goroutines currently holding a semaphore slot. -/
def runningCount (phases : List TaskPhase) : Nat :=
  phases.countP (fun p => p == TaskPhase.running)

/-- The transitions of the worker pool of `Runner.Run` with semaphore
capacity `limit` over test cases `tcs`:
`acquire` — `semaphore <- struct{}{}` succeeds only while fewer than
`limit` slots are held (a buffered-channel send blocks when full);
`finish` — the goroutine completes `runSingleTest` (whatever the
outcome's status), sends the result, and the deferred receive releases
the slot. -/
inductive PoolStep (env : Env) (cfg : Config) (limit : Nat)
    (tcs : List TestCase) : PoolState → PoolState → Prop where
  | acquire (s : PoolState) (i : Nat) (hi : i < s.phases.length)
      (hp : s.phases.get ⟨i, hi⟩ = TaskPhase.started)
      (hslot : runningCount s.phases < limit) :
      PoolStep env cfg limit tcs s
        { phases := s.phases.set i TaskPhase.running, sent := s.sent }
  | finish (s : PoolState) (i : Nat) (hi : i < s.phases.length)
      (hp : s.phases.get ⟨i, hi⟩ = TaskPhase.running)
      (hic : i < tcs.length) :
      PoolStep env cfg limit tcs s
        { phases := s.phases.set i TaskPhase.done
          sent := s.sent ++ [runSingleTest env cfg (tcs.get ⟨i, hic⟩)] }

/-- Pool states reachable from the initial state in which every case's
goroutine has been launched and none holds a slot. -/
inductive PoolReachable (env : Env) (cfg : Config) (limit : Nat)
    (tcs : List TestCase) : PoolState → Prop where
  | init : PoolReachable env cfg limit tcs
      { phases := List.replicate tcs.length TaskPhase.started, sent := [] }
  | step (s t : PoolState) :
      PoolReachable env cfg limit tcs s → PoolStep env cfg limit tcs s t →
      PoolReachable env cfg limit tcs t

/-- Modelled from the spec (§4.3 Relevance), for comparison with the
code: "score = fraction of expected keywords (distinct, case-insensitive)
found as substrings in the response text". -/
def specDistinctRelevanceScore (text expectedContent : String) : Rat :=
  let text := goToLower text
  let words := (goFields (goToLower expectedContent)).dedup
  let matchCount := (words.filter (fun w => strContains text w)).length
  if words.length = 0 then 0 else mkRat matchCount words.length

/-- The shortest balanced-brace region at the head of the input
(the head must be an opening brace); helper for the spec-modelled
contains-JSON scanner. -/
def takeBalanced : Nat → Nat → List Char → Option (List Char)
  | 0, _, _ => none
  | Nat.succ _, _, [] => none
  | Nat.succ fuel, depth, c :: cs =>
    if c == '\x7b' then
      match takeBalanced fuel (depth + 1) cs with
      | some r => some (c :: r)
      | none => none
    else if c == '\x7d' then
      if depth = 1 then some [c]
      else
        match takeBalanced fuel (depth - 1) cs with
        | some r => some (c :: r)
        | none => none
    else
      match takeBalanced fuel depth cs with
      | some r => some (c :: r)
      | none => none

/-- Left-to-right scan for the spec-modelled extractor. -/
def specScanBalanced : Nat → List Char → Option (List Char)
  | 0, _ => none
  | Nat.succ _, [] => none
  | Nat.succ fuel, c :: cs =>
    if c == '\x7b' then
      match takeBalanced (cs.length + 1) 0 (c :: cs) with
      | some r =>
        if (unmarshal (String.mk r)).isSome then some r
        else specScanBalanced fuel cs
      | none => specScanBalanced fuel cs
    else specScanBalanced fuel cs

/-- Modelled from the spec (§4.3 Contains-JSON), for comparison with the
code: "scans for the first balanced-brace region parsing as valid
JSON". -/
def specFirstBalancedJSON (text : String) : String :=
  match specScanBalanced (text.data.length + 1) text.data with
  | some r => String.mk r
  | none => ""

/-- Modelled from the spec (§4.3 Contains-JSON), for comparison with the
code: with a required-fields list, the first balanced-brace JSON region
must be an object containing every listed key. -/
def specContainsJSONPassed (requiredFields : List String) (text : String) :
    Bool :=
  let js := specFirstBalancedJSON text
  if js = "" then false
  else
    match unmarshal js with
    | some (JValue.jobj dataMap) =>
      requiredFields.all (fun n => dataMap.any (fun kv => kv.1 == n))
    | _ => false

example : specFirstBalancedJSON "\x7b\"a\":\x7b\"b\":\x7b\"c\":1\x7d\x7d\x7d"
    = "\x7b\"a\":\x7b\"b\":\x7b\"c\":1\x7d\x7d\x7d" := by decide
example : specContainsJSONPassed ["a"] "\x7b\"a\":\x7b\"b\":\x7b\"c\":1\x7d\x7d\x7d" = true := by decide

/-- Reflexivity: `leadsL` holds of any list against itself. -/
theorem leadsL_refl (l : List Char) : leadsL l l = true := by
  induction l with
  | nil => rfl
  | cons c t ih => simp [leadsL, ih]

/-- A list that occurs as a sub-list of the tail occurs in the whole. -/
theorem hasSubL_cons (needle : List Char) (c : Char) (hay : List Char)
    (h : hasSubL needle hay = true) : hasSubL needle (c :: hay) = true := by
  cases hay with
  | nil =>
    simp [hasSubL] at h ⊢
    simp [h]
  | cons d t =>
    simp [hasSubL] at h ⊢
    rcases h with h | h
    · exact Or.inr (Or.inl h)
    · exact Or.inr (Or.inr h)

/-- Every string contains its own suffix: `strContains (s ++ t) t`. -/
theorem strContains_append_right (s t : String) :
    strContains (s ++ t) t = true := by
  show hasSubL t.data (s ++ t).data = true
  rw [String.data_append]
  induction s.data with
  | nil =>
    simp only [List.nil_append]
    cases t.data with
    | nil => rfl
    | cons c cs => simp [hasSubL, leadsL_refl]
  | cons c cs ih => exact hasSubL_cons _ c _ ih

/-- A minimal response, used to exercise the evaluators. -/
def mkResp (text : String) : Response :=
  { text := text, cost := 0, tokens := 0, provider := "p", model := "m" }

/-- An `answer-relevance` assertion with the given expected value and
threshold. -/
def relevanceAssertion (expected : String) (th : Rat) : Assertion :=
  { type := "answer-relevance", value := GoValue.vstr expected
    threshold := th, required := false }

/-- C4, counterexample: on expected value `"pro pro plan"` (a repeated
keyword) and response `"plan"`, the code's score is 1/3 — the fraction
counted with multiplicity — while the fraction of distinct keywords
found, as the claim states it, is 1/2. -/
theorem c4_counterexample :
    (runAssertion (relevanceAssertion "pro pro plan" 0) (mkResp "plan")).score
        = mkRat 1 3
    ∧ specDistinctRelevanceScore "plan" "pro pro plan" = mkRat 1 2
    ∧ mkRat 1 3 ≠ mkRat 1 2 := by
  refine ⟨by decide, by decide, by decide⟩

/-- For a positive natural `n`, `mkRat n n = 1`. -/
theorem mkRat_same (n : Nat) (h : n ≠ 0) : mkRat (n : Int) n = 1 := by
  rw [Rat.mkRat_eq_div]
  push_cast
  exact div_self (by exact_mod_cast h)

/-- C4 (amended): the relevance score is the fraction of the
whitespace-separated expected keywords, counted with multiplicity (not
deduplicated), found case-insensitively as substrings of the response;
the threshold defaults to 0.7 exactly when the configured threshold is
the zero value; the assertion passes iff score ≥ threshold; if every
keyword occurs the score is 1, and if none occurs the assertion fails
the default threshold. -/
theorem c4_thm (expected : String) (resp : Response) (th : Rat) :
    let r := runAssertion (relevanceAssertion expected th) resp
    let words := goFields (goToLower expected)
    let found :=
      (words.filter (fun w => strContains (goToLower resp.text) w)).length
    r.score = (if words.length = 0 then 0 else mkRat found words.length)
    ∧ r.passed = decide (r.score ≥ (if th = 0 then mkRat 7 10 else th))
    ∧ (found = words.length → words.length ≠ 0 → r.score = 1)
    ∧ (found = 0 → th = 0 → r.passed = false) := by
  intro r words found
  have hr : r = runAssertion (relevanceAssertion expected th) resp := rfl
  have hscore :
      r.score = (if words.length = 0 then 0 else mkRat found words.length) := by
    simp [hr, runAssertion, evaluateAssertion, answerRelevanceEvaluate,
      relevanceAssertion, calculateRelevanceScore, words, found]
  have hpassed :
      r.passed = decide (r.score ≥ (if th = 0 then mkRat 7 10 else th)) := by
    simp [hr, runAssertion, evaluateAssertion, answerRelevanceEvaluate,
      relevanceAssertion, calculateRelevanceScore, words, found, ge_iff_le]
  refine ⟨hscore, hpassed, ?_, ?_⟩
  · intro hall hne
    rw [hscore, if_neg hne, hall]
    exact mkRat_same words.length hne
  · intro hnone hth
    have h0 : r.score = 0 := by
      rw [hscore, hnone]
      by_cases hlen : words.length = 0
      · rw [if_pos hlen]
      · rw [if_neg hlen]
        exact Rat.zero_mkRat words.length
    rw [hpassed, h0, hth]
    decide

/-- C4 witness: instantiates `c4_thm` on the expected value
`"pro plan"` against a response containing both keywords (different
case), discharging its hypotheses: the score evaluates to 1. -/
theorem c4_witness :
    (runAssertion (relevanceAssertion "pro plan" 0) (mkResp "The PRO Plan")).score
      = 1 := by
  have h := c4_thm "pro plan" (mkResp "The PRO Plan") 0
  exact h.2.2.1 (by decide) (by decide)

/-- The assertion kinds registered in `NewEvaluator` (assertions.go). -/
def registeredKinds : List String :=
  ["answer-relevance", "contains-json", "cost", "llm-rubric", "closed-qa",
   "toxicity", "jailbreak"]

/-- C6: an assertion whose kind is not registered evaluates — through
`Runner.runAssertion` — to a failing `AssertionResult` that carries the
kind and whose message names it; the unknown kind is neither silently
dropped nor fatal (`runAssertion` is total and returns a result). -/
theorem c6_thm (kind : String) (h : kind ∉ registeredKinds)
    (assertion : Assertion) (resp : Response) (ht : assertion.type = kind) :
    (runAssertion assertion resp).passed = false
    ∧ (runAssertion assertion resp).message
        = "Evaluation error: " ++ ("unsupported assertion type: " ++ kind)
    ∧ strContains (runAssertion assertion resp).message kind = true
    ∧ (runAssertion assertion resp).type = kind := by
  simp only [registeredKinds, List.mem_cons, List.not_mem_nil, or_false,
    not_or] at h
  obtain ⟨h1, h2, h3, h4, h5, h6, h7⟩ := h
  have hrun : runAssertion assertion resp =
      { type := assertion.type
        passed := false
        message := "Evaluation error: "
          ++ ("unsupported assertion type: " ++ kind) } := by
    rw [runAssertion, evaluateAssertion, ht]
    simp [unsupportedEvaluate, h1, h2, h3, h4, h5, h6, h7]
  refine ⟨by rw [hrun], by rw [hrun], ?_, by rw [hrun, ht]⟩
  rw [hrun]
  have : "Evaluation error: " ++ ("unsupported assertion type: " ++ kind)
      = ("Evaluation error: " ++ "unsupported assertion type: ") ++ kind := by
    rw [String.append_assoc]
  rw [this]
  exact strContains_append_right _ kind

/-- C6 witness: `c6_thm` applied to the unregistered kind
`"regex"`. -/
theorem c6_witness :
    (runAssertion { type := "regex", value := GoValue.vnull, threshold := 0
                    required := false } (mkResp "x")).passed = false
    ∧ (runAssertion { type := "regex", value := GoValue.vnull, threshold := 0
                      required := false } (mkResp "x")).message
        = "Evaluation error: " ++ ("unsupported assertion type: " ++ "regex") :=
  ⟨(c6_thm "regex" (by decide) _ (mkResp "x") rfl).1,
   (c6_thm "regex" (by decide) _ (mkResp "x") rfl).2.1⟩

/-- A test case named `alpha`, matching none of the demo filters. -/
def alphaCase : TestCase :=
  { name := "alpha", promptFile := "p.prompt", provider := "ollama:llama2"
    vars := [], test := {} }

/-- Options carrying the single name filter `"zzz"`. -/
def zzzFilterOptions : Options :=
  { parallel := 1, filters := ["zzz"], commitSHA := "", prNumber := "" }

/-- C7: `Runner.filterTestCases` is an unimplemented TODO stub — with
the filter list `["zzz"]`, the case named `"alpha"` matches no filter
(neither as a glob nor as a substring) yet survives filtering, and so is
still dispatched by `Run`. -/
theorem c7_thm :
    strContains "alpha" "zzz" = false
    ∧ filterTestCases zzzFilterOptions [alphaCase] = [alphaCase]
    ∧ testCasesOf { prompts := [], providers := [], tests := [] }
        zzzFilterOptions ["p.prompt"]
      = generateTestCases { prompts := [], providers := [], tests := [] }
          ["p.prompt"] :=
  ⟨by decide, rfl, rfl⟩

/-- C9: the baseline-comparison classifier marks a regression exactly
when `current.Failed > baseline.Failed`, an improvement exactly when
`current.Failed < baseline.Failed`, and emits neither banner (neutral)
exactly when they are equal; and the report is a pure function of the
two result sets, so identical inputs give identical reports. -/
theorem c9_thm (current baseline : Results) :
    (regressionBlock current baseline
        = "\n🚨 **REGRESSION DETECTED** - More tests failing than baseline!\n\n"
      ↔ current.failed > baseline.failed)
    ∧ (regressionBlock current baseline
        = "\n✅ **IMPROVEMENT** - Fewer test failures than baseline!\n\n"
      ↔ current.failed < baseline.failed)
    ∧ (regressionBlock current baseline = ""
      ↔ current.failed = baseline.failed)
    ∧ (∀ c b : Results, current = c → baseline = b →
        generateBaselineComparison current baseline
          = generateBaselineComparison c b) := by
  rcases Nat.lt_trichotomy baseline.failed current.failed with hlt | heq | hgt
  · have hgt2 : current.failed > baseline.failed := hlt
    have hnlt : ¬ current.failed < baseline.failed := Nat.lt_asymm hlt
    have hne : ¬ current.failed = baseline.failed := Nat.ne_of_gt hlt
    refine ⟨?_, ?_, ?_, ?_⟩
    · simp [regressionBlock, hgt2]
    · simp only [regressionBlock, if_pos hgt2]
      constructor
      · intro hcontra
        exact absurd hcontra (by decide)
      · intro hcontra
        exact absurd hcontra hnlt
    · simp only [regressionBlock, if_pos hgt2]
      constructor
      · intro hcontra
        exact absurd hcontra (by decide)
      · intro hcontra
        exact absurd hcontra hne
    · intro c b hc hb
      rw [hc, hb]
  · have hngt : ¬ current.failed > baseline.failed := by omega
    have hnlt : ¬ current.failed < baseline.failed := by omega
    refine ⟨?_, ?_, ?_, ?_⟩
    · simp only [regressionBlock, if_neg hngt, if_neg hnlt]
      constructor
      · intro hcontra
        exact absurd hcontra (by decide)
      · intro hcontra
        exact absurd hcontra hngt
    · simp only [regressionBlock, if_neg hngt, if_neg hnlt]
      constructor
      · intro hcontra
        exact absurd hcontra (by decide)
      · intro hcontra
        exact absurd hcontra hnlt
    · simp only [regressionBlock, if_neg hngt, if_neg hnlt]
      constructor
      · intro _
        omega
      · intro _
        trivial
    · intro c b hc hb
      rw [hc, hb]
  · have hngt : ¬ current.failed > baseline.failed := by omega
    have hlt2 : current.failed < baseline.failed := hgt
    refine ⟨?_, ?_, ?_, ?_⟩
    · simp only [regressionBlock, if_neg hngt, if_pos hlt2]
      constructor
      · intro hcontra
        exact absurd hcontra (by decide)
      · intro hcontra
        exact absurd hcontra hngt
    · simp [regressionBlock, hngt, hlt2]
    · simp only [regressionBlock, if_neg hngt, if_pos hlt2]
      constructor
      · intro hcontra
        exact absurd hcontra (by decide)
      · intro hcontra
        omega
    · intro c b hc hb
      rw [hc, hb]

/-- C9 witness: `c9_thm` applied to concrete results with two
current failures against a clean baseline yields the regression
banner. -/
theorem c9_witness :
    regressionBlock { failed := 2 } { failed := 0 }
      = "\n🚨 **REGRESSION DETECTED** - More tests failing than baseline!\n\n" :=
  (c9_thm { failed := 2 } { failed := 0 }).1.mpr (by decide)

/-- Whatever `extractJSON` returns, if non-empty, parses: the scanner
only returns a regex match accepted by `json.Unmarshal`. -/
theorem extractJSON_parses (text : String) (h : extractJSON text ≠ "") :
    (unmarshal (extractJSON text)).isSome = true := by
  cases hfind : (regexFindAll (text.data.length + 1) text.data).find?
      (fun m => (unmarshal (String.mk m)).isSome) with
  | none => exact absurd (by simp only [extractJSON, hfind]) h
  | some m =>
    have hm := List.find?_some hfind
    have hEq : extractJSON text = String.mk m := by
      simp only [extractJSON, hfind]
    rw [hEq]
    simpa using hm

/-- A `contains-json` assertion with the given required-fields list,
as the YAML `value: {required: [...]}` decodes it. -/
def jsonRequiredAssertion (req : List String) : Assertion :=
  { type := "contains-json"
    value := GoValue.vmap [("required", GoValue.varr (req.map GoValue.vstr))]
    threshold := 0, required := false }

/-- A response text whose JSON object nests two levels deep. -/
def nestedJSONText : String := "\x7b\"a\":\x7b\"b\":\x7b\"c\":1\x7d\x7d\x7d"

/-- C5, counterexample: on the response `{"a":{"b":{"c":1}}}` the first
balanced-brace region parsing as JSON is the whole text (as the claim
reads), but the code's depth-limited regex skips it and extracts the
inner `{"b":{"c":1}}`; with required fields `["a"]` the claim predicts
a pass while the code fails, naming `"a"` as missing. -/
theorem c5_counterexample :
    extractJSON nestedJSONText = "\x7b\"b\":\x7b\"c\":1\x7d\x7d"
    ∧ specFirstBalancedJSON nestedJSONText = nestedJSONText
    ∧ specContainsJSONPassed ["a"] nestedJSONText = true
    ∧ (runAssertion (jsonRequiredAssertion ["a"]) (mkResp nestedJSONText)).passed
        = false
    ∧ (runAssertion (jsonRequiredAssertion ["a"]) (mkResp nestedJSONText)).message
        = "Schema validation failed: required field missing: a" := by
  refine ⟨by decide, by decide, by decide, by decide, by decide⟩

/-- C5 (amended): the evaluator scans with the depth-limited brace
regex (regions nesting at most one level inside the outer braces) and
takes the first match that parses as JSON — not the first balanced
region in general.  If no match parses, the assertion fails with
"No JSON found in response"; otherwise, with a required-fields list,
the parsed object must contain every listed key, the assertion passing
iff none is missing and otherwise failing with a message naming the
first missing field. -/
theorem c5_thm (text : String) (req : List String) :
    (extractJSON text = "" →
      (runAssertion (jsonRequiredAssertion req) (mkResp text)).passed = false
      ∧ (runAssertion (jsonRequiredAssertion req) (mkResp text)).message
          = "No JSON found in response")
    ∧ (extractJSON text ≠ "" → (unmarshal (extractJSON text)).isSome = true)
    ∧ (∀ dataMap, unmarshal (extractJSON text) = some (JValue.jobj dataMap) →
        (firstMissingRequired (req.map GoValue.vstr) dataMap = none →
          (runAssertion (jsonRequiredAssertion req) (mkResp text)).passed = true
          ∧ (runAssertion (jsonRequiredAssertion req) (mkResp text)).message
              = "Valid JSON found")
        ∧ (∀ name,
            firstMissingRequired (req.map GoValue.vstr) dataMap = some name →
            (runAssertion (jsonRequiredAssertion req) (mkResp text)).passed
              = false
            ∧ (runAssertion (jsonRequiredAssertion req) (mkResp text)).message
              = "Schema validation failed: "
                ++ ("required field missing: " ++ name))) := by
  refine ⟨?_, fun h => extractJSON_parses text h, ?_⟩
  · intro hjs
    constructor <;>
      simp [runAssertion, evaluateAssertion, containsJSONEvaluate,
        jsonRequiredAssertion, mkResp, hjs]
  · intro dataMap hdm
    have hjs : ¬ extractJSON text = "" := by
      intro h0
      rw [h0] at hdm
      have hcontra := congrArg Option.isSome hdm
      rw [show (unmarshal "").isSome = false from by decide] at hcontra
      simp at hcontra
    constructor
    · intro hnone
      constructor <;>
        simp [runAssertion, evaluateAssertion, containsJSONEvaluate,
          jsonRequiredAssertion, mkResp, hjs, hdm, validateJSONSchema,
          lookupGo, hnone]
    · intro name hname
      constructor <;>
        simp [runAssertion, evaluateAssertion, containsJSONEvaluate,
          jsonRequiredAssertion, mkResp, hjs, hdm, validateJSONSchema,
          lookupGo, hname]

/-- C5 witness: `c5_thm` on the spec's example — response
`Welcome! {"a":1}` with required fields `["b"]` — discharging its
hypotheses by evaluation: the assertion fails and the message names
`"b"`. -/
theorem c5_witness :
    (runAssertion (jsonRequiredAssertion ["b"])
        (mkResp "Welcome! \x7b\"a\":1\x7d")).passed = false
    ∧ (runAssertion (jsonRequiredAssertion ["b"])
        (mkResp "Welcome! \x7b\"a\":1\x7d")).message
      = "Schema validation failed: " ++ ("required field missing: " ++ "b") :=
  ((c5_thm "Welcome! \x7b\"a\":1\x7d" ["b"]).2.2
      [("a", JValue.jnum 1)] (by rfl)).2 "b" (by rfl)

/-- Folding append of a generated list equals `flatMap`. -/
theorem foldl_append_eq_flatMap {α β : Type} (f : α → List β) :
    ∀ (l : List α) (acc : List β),
      l.foldl (fun a x => a ++ f x) acc = acc ++ l.flatMap f
  | [], acc => by simp
  | x :: rest, acc => by
    simp [foldl_append_eq_flatMap f rest, List.append_assoc]

/-- Function `Runner.generateTestCases` is the concatenation, over the prompt
iteration order, of the per-prompt expansion of the test specs in
declaration order. -/
theorem generateTestCases_eq_flatMap (cfg : Config) (order : List String) :
    generateTestCases cfg order
      = order.flatMap
          (fun pf => cfg.tests.enum.map (fun p => mkTestCase cfg pf p.1 p.2)) := by
  rw [generateTestCases, foldl_append_eq_flatMap]
  simp

/-- Length of a `flatMap` whose pieces all have the same length. -/
theorem length_flatMap_const {α β : Type} (f : α → List β) (k : Nat)
    (hf : ∀ a, (f a).length = k) :
    ∀ l : List α, (l.flatMap f).length = l.length * k
  | [] => by simp
  | a :: rest => by
    simp [hf a, length_flatMap_const f k hf rest, Nat.succ_mul, Nat.add_comm]

/-- A two-prompt configuration with one anonymous test spec. -/
def twoPromptConfig : Config :=
  { prompts := ["p.prompt", "q.prompt"]
    providers := [{ id := "ollama:llama2", config := [] }]
    tests := [{ name := "", description := "", vars := [], assert := []
                provider := "" }] }

/-- C8, counterexample: `generateTestCases` iterates a Go map, whose
iteration order is unspecified and varies between reruns; both orders of
the two prompt files are possible iterations, and they produce different
case lists — so the produced list is neither in declaration order nor
identical across reruns. -/
theorem c8_counterexample :
    List.Perm ["p.prompt", "q.prompt"] twoPromptConfig.prompts
    ∧ List.Perm ["q.prompt", "p.prompt"] twoPromptConfig.prompts
    ∧ generateTestCases twoPromptConfig ["p.prompt", "q.prompt"]
        ≠ generateTestCases twoPromptConfig ["q.prompt", "p.prompt"] :=
  ⟨by decide, by decide,
   fun h => absurd (congrArg (List.map TestCase.name) h) (by decide)⟩

/-- C8 (amended): for each fixed map-iteration order the expander emits
the full cross product, with the test specs of each prompt expanded in
declaration order, an unset provider defaulting to the first configured
provider, and a deterministic synthetic name `<prompt>_test_<ordinal>`
when no explicit name is given; across reruns the case list is identical
only up to the (unspecified) permutation of prompt files — the multiset
of cases is rerun-invariant. -/
theorem c8_thm (cfg : Config) (o1 o2 : List String)
    (h : List.Perm o1 o2) :
    List.Perm (generateTestCases cfg o1) (generateTestCases cfg o2)
    ∧ generateTestCases cfg o1
        = o1.flatMap
            (fun pf => cfg.tests.enum.map (fun p => mkTestCase cfg pf p.1 p.2))
    ∧ (generateTestCases cfg o1).length = o1.length * cfg.tests.length
    ∧ (∀ pf, generateTestCases cfg [pf]
        = cfg.tests.enum.map (fun p => mkTestCase cfg pf p.1 p.2))
    ∧ (∀ pf i test, (mkTestCase cfg pf i test).name
        = (if test.name = "" then pf ++ "_test_" ++ toString i
           else test.name))
    ∧ (∀ pf i test, (mkTestCase cfg pf i test).provider
        = (match cfg.providers with
           | [] => test.provider
           | p :: _ => if test.provider = "" then p.id
                       else test.provider)) := by
  refine ⟨?_, generateTestCases_eq_flatMap cfg o1, ?_, ?_,
    fun pf i test => rfl, fun pf i test => rfl⟩
  · rw [generateTestCases_eq_flatMap cfg o1, generateTestCases_eq_flatMap cfg o2]
    exact List.Perm.flatMap_right _ h
  · rw [generateTestCases_eq_flatMap cfg o1]
    exact length_flatMap_const _ cfg.tests.length (by simp) o1
  · intro pf
    rw [generateTestCases_eq_flatMap cfg [pf]]
    simp

/-- C8 witness: `c8_thm` on the two-prompt configuration and the two
map-iteration orders (a permutation, discharged by evaluation): the two
runs produce permutations of each other. -/
theorem c8_witness :
    List.Perm (generateTestCases twoPromptConfig ["p.prompt", "q.prompt"])
      (generateTestCases twoPromptConfig ["q.prompt", "p.prompt"]) :=
  (c8_thm twoPromptConfig _ _ (by decide)).1

/-- The collection loop never touches `Total`. -/
theorem aggregateLoop_total (rs : List TestResult) :
    ∀ acc, (aggregateLoop rs acc).total = acc.total := by
  induction rs with
  | nil => intro acc; rfl
  | cons r rest ih =>
    intro acc
    simp only [aggregateLoop]
    split_ifs <;> exact (ih _).trans rfl

/-- The collection loop appends exactly the arriving results. -/
theorem aggregateLoop_testResults (rs : List TestResult) :
    ∀ acc, (aggregateLoop rs acc).testResults = acc.testResults ++ rs := by
  induction rs with
  | nil => intro acc; simp [aggregateLoop]
  | cons r rest ih =>
    intro acc
    simp only [aggregateLoop]
    split_ifs <;> simp [ih]

/-- The collection loop accumulates exactly the arriving costs. -/
theorem aggregateLoop_totalCost (rs : List TestResult) :
    ∀ acc, (aggregateLoop rs acc).totalCost
      = acc.totalCost + (rs.map TestResult.cost).sum := by
  induction rs with
  | nil => intro acc; simp [aggregateLoop]
  | cons r rest ih =>
    intro acc
    simp only [aggregateLoop]
    split_ifs <;> simp [ih, add_assoc]

/-- When every arriving status is `passed` or `failed`, the loop adds
one to `passed + failed` per result and never touches `skipped`. -/
theorem aggregateLoop_passed_failed (rs : List TestResult) :
    ∀ acc, (∀ r ∈ rs, r.status = "passed" ∨ r.status = "failed") →
      (aggregateLoop rs acc).passed + (aggregateLoop rs acc).failed
          = acc.passed + acc.failed + rs.length
      ∧ (aggregateLoop rs acc).skipped = acc.skipped := by
  induction rs with
  | nil =>
    intro acc _
    simp [aggregateLoop]
  | cons r rest ih =>
    intro acc h
    have hr := h r (List.mem_cons_self r rest)
    have hrest := fun x hx => h x (List.mem_cons_of_mem r hx)
    simp only [aggregateLoop]
    rcases hr with hp | hf
    · rw [if_pos hp]
      refine ⟨?_, ?_⟩
      · rw [(ih _ hrest).1]
        show acc.passed + 1 + acc.failed + rest.length
          = acc.passed + acc.failed + (r :: rest).length
        simp only [List.length_cons]
        omega
      · rw [(ih _ hrest).2]
    · have hnp : ¬ r.status = "passed" := by rw [hf]; decide
      rw [if_neg hnp, if_pos hf]
      refine ⟨?_, ?_⟩
      · rw [(ih _ hrest).1]
        show acc.passed + (acc.failed + 1) + rest.length
          = acc.passed + acc.failed + (r :: rest).length
        simp only [List.length_cons]
        omega
      · rw [(ih _ hrest).2]

/-- Case execution `runSingleTest` only ever produces status `passed` or `failed`. -/
theorem runSingleTest_status (env : Env) (cfg : Config) (tc : TestCase) :
    (runSingleTest env cfg tc).status = "passed"
    ∨ (runSingleTest env cfg tc).status = "failed" := by
  cases h1 : env.loadPrompt tc.promptFile with
  | error e => right; simp [runSingleTest, h1]
  | ok prompt =>
    cases h2 : env.render prompt tc.vars with
    | error e => right; simp [runSingleTest, h1, h2]
    | ok renderedPrompt =>
      cases h3 : getProvider cfg tc.provider with
      | error e => right; simp [runSingleTest, h1, h2, h3]
      | ok providerConfig =>
        cases h4 : env.newClient providerConfig with
        | error e => right; simp [runSingleTest, h1, h2, h3, h4]
        | ok client =>
          cases h5 : env.complete client renderedPrompt with
          | error e => right; simp [runSingleTest, h1, h2, h3, h4, h5]
          | ok resp =>
            by_cases hall :
              ((tc.test.assert.map (fun a => runAssertion a resp)).all
                (fun ar => ar.passed)) = true
            · left; simp [runSingleTest, h1, h2, h3, h4, h5, hall]
            · right; simp [runSingleTest, h1, h2, h3, h4, h5, hall]

/-- A string with a non-empty prefix is non-empty. -/
theorem append_left_ne_empty (s t : String) (hs : ¬ s = "") :
    ¬ (s ++ t = "") := by
  intro he
  apply hs
  have hd : s.data ++ t.data = [] := by
    rw [← String.data_append, he]
  rcases List.append_eq_nil.mp hd with ⟨h1, _⟩
  cases s with
  | mk data =>
    simp only at h1
    rw [show ("" : String) = String.mk [] from rfl, ← h1]

/-- C1: every `Results` value produced by `Runner.Run` satisfies the
totals partition `Total = Passed + Failed + Skipped` and has `TotalCost`
equal to the sum of the `Cost` fields of its `TestResults`. -/
theorem c1_thm (env : Env) (cfg : Config) (opts : Options)
    (res : Results) (h : RunProduces env cfg opts res) :
    res.total = res.passed + res.failed + res.skipped
    ∧ res.totalCost = (res.testResults.map TestResult.cost).sum := by
  obtain ⟨order, arrival, _, _, harr, heq⟩ := h
  subst heq
  simp only [runResultOf]
  have hstat : ∀ r ∈ arrival, r.status = "passed" ∨ r.status = "failed" := by
    intro r hr
    have hmem := harr.mem_iff.mp hr
    rcases List.mem_map.mp hmem with ⟨tc, _, hrr⟩
    rw [← hrr]
    exact runSingleTest_status env cfg tc
  have hlen : arrival.length = (testCasesOf cfg opts order).length := by
    rw [harr.length_eq, List.length_map]
  have hpf := aggregateLoop_passed_failed arrival
    (initResults (testCasesOf cfg opts order).length opts env.now) hstat
  have h1 := hpf.1
  have h2 := hpf.2
  rw [show (initResults (testCasesOf cfg opts order).length opts env.now).passed
      = 0 from rfl,
    show (initResults (testCasesOf cfg opts order).length opts env.now).failed
      = 0 from rfl] at h1
  rw [show (initResults (testCasesOf cfg opts order).length opts env.now).skipped
      = 0 from rfl] at h2
  constructor
  · rw [aggregateLoop_total,
      show (initResults (testCasesOf cfg opts order).length opts env.now).total
        = (testCasesOf cfg opts order).length from rfl, h2]
    omega
  · rw [aggregateLoop_totalCost, aggregateLoop_testResults,
      show (initResults (testCasesOf cfg opts order).length opts
          env.now).totalCost = 0 from rfl,
      show (initResults (testCasesOf cfg opts order).length opts
          env.now).testResults = [] from rfl]
    simp

/-- An environment whose prompts load but whose rendering, client
construction and completions fail: only external failures. -/
def witnessEnv : Env :=
  { loadPrompt := fun _ => Except.ok { content := "c" }
    render := fun _ _ => Except.error "render boom"
    newClient := fun _ => Except.error "no client"
    complete := fun _ _ => Except.error "no network"
    now := "2026-10-11T00:00:00Z" }

/-- A one-prompt, one-test configuration. -/
def witnessConfig : Config :=
  { prompts := ["p.prompt"]
    providers := [{ id := "ollama:llama2", config := [] }]
    tests := [{ name := "t1", description := "", vars := []
                assert := [{ type := "cost", value := GoValue.vnull
                             threshold := 1, required := false }]
                provider := "" }] }

/-- Options with no filters and two workers. -/
def witnessOptions : Options :=
  { parallel := 2, filters := [], commitSHA := "", prNumber := "" }

/-- The channel arrival order equal to dispatch order. -/
def witnessArrival : List TestResult :=
  (testCasesOf witnessConfig witnessOptions ["p.prompt"]).map
    (runSingleTest witnessEnv witnessConfig)

/-- The `Results` value of that run. -/
def witnessRunResult : Results :=
  runResultOf witnessEnv witnessConfig witnessOptions ["p.prompt"]
    witnessArrival

/-- C1 witness: `c1_thm` applied to a concrete completed run,
its `RunProduces` hypothesis discharged by explicit construction. -/
theorem c1_witness :
    witnessRunResult.total
        = witnessRunResult.passed + witnessRunResult.failed
          + witnessRunResult.skipped
    ∧ witnessRunResult.totalCost
        = (witnessRunResult.testResults.map TestResult.cost).sum :=
  c1_thm witnessEnv witnessConfig witnessOptions witnessRunResult
    ⟨["p.prompt"], witnessArrival, List.Perm.refl _,
     fun _ _ => ⟨{ content := "c" }, rfl⟩, List.Perm.refl _, rfl⟩

/-- C10: `runSingleTest` only ever sets status `passed` or `failed`, so
every `Results` value produced by `Run` has `Skipped = 0` and
`Total = Passed + Failed`, even though the declared status domain also
lists `skipped`. -/
theorem c10_thm (env : Env) (cfg : Config) (opts : Options)
    (res : Results) (h : RunProduces env cfg opts res) :
    (∀ tc : TestCase, (runSingleTest env cfg tc).status = "passed"
        ∨ (runSingleTest env cfg tc).status = "failed")
    ∧ res.skipped = 0
    ∧ res.total = res.passed + res.failed := by
  obtain ⟨order, arrival, _, _, harr, heq⟩ := h
  subst heq
  simp only [runResultOf]
  have hstat : ∀ r ∈ arrival, r.status = "passed" ∨ r.status = "failed" := by
    intro r hr
    have hmem := harr.mem_iff.mp hr
    rcases List.mem_map.mp hmem with ⟨tc, _, hrr⟩
    rw [← hrr]
    exact runSingleTest_status env cfg tc
  have hlen : arrival.length = (testCasesOf cfg opts order).length := by
    rw [harr.length_eq, List.length_map]
  have hpf := aggregateLoop_passed_failed arrival
    (initResults (testCasesOf cfg opts order).length opts env.now) hstat
  have h1 := hpf.1
  have h2 := hpf.2
  rw [show (initResults (testCasesOf cfg opts order).length opts env.now).passed
      = 0 from rfl,
    show (initResults (testCasesOf cfg opts order).length opts env.now).failed
      = 0 from rfl] at h1
  rw [show (initResults (testCasesOf cfg opts order).length opts env.now).skipped
      = 0 from rfl] at h2
  refine ⟨runSingleTest_status env cfg, h2, ?_⟩
  rw [aggregateLoop_total,
    show (initResults (testCasesOf cfg opts order).length opts env.now).total
      = (testCasesOf cfg opts order).length from rfl]
  omega

/-- C10 witness: `c10_thm` applied to the concrete run above. -/
theorem c10_witness :
    witnessRunResult.skipped = 0
    ∧ witnessRunResult.total = witnessRunResult.passed + witnessRunResult.failed :=
  ⟨(c10_thm witnessEnv witnessConfig witnessOptions witnessRunResult
      ⟨["p.prompt"], witnessArrival, List.Perm.refl _,
       fun _ _ => ⟨{ content := "c" }, rfl⟩, List.Perm.refl _, rfl⟩).2.1,
   (c10_thm witnessEnv witnessConfig witnessOptions witnessRunResult
      ⟨["p.prompt"], witnessArrival, List.Perm.refl _,
       fun _ _ => ⟨{ content := "c" }, rfl⟩, List.Perm.refl _, rfl⟩).2.2⟩

/-- Per-run case count: every iteration order yields the full cross
product (the filter is the identity stub). -/
theorem testCasesOf_length (cfg : Config) (opts : Options)
    (order : List String) :
    (testCasesOf cfg opts order).length = order.length * cfg.tests.length := by
  simp only [testCasesOf, filterTestCases]
  split_ifs <;>
    (rw [generateTestCases_eq_flatMap]
     exact length_flatMap_const _ cfg.tests.length (by simp) order)

/-- C3: any per-case pipeline failure (prompt load, render, provider
resolution, client construction, or completion) yields a `TestResult`
with status `failed`, a non-empty error, and no assertion evaluation;
assertions are evaluated exactly when the completion succeeded; the
remaining cases are unaffected (`runSingleTest` is per-case), and every
produced `RunResult` carries exactly one `TestResult` per submitted
case. -/
theorem c3_thm (env : Env) (cfg : Config) :
    (∀ tc e, completionOf env cfg tc = Except.error e →
      (runSingleTest env cfg tc).status = "failed"
      ∧ ¬ (runSingleTest env cfg tc).error = ""
      ∧ (runSingleTest env cfg tc).assertions = [])
    ∧ (∀ tc resp, completionOf env cfg tc = Except.ok resp →
      (runSingleTest env cfg tc).assertions
          = tc.test.assert.map (fun a => runAssertion a resp)
      ∧ (runSingleTest env cfg tc).response = resp.text
      ∧ (runSingleTest env cfg tc).cost = resp.cost)
    ∧ (∀ opts res, RunProduces env cfg opts res →
      res.testResults.length = cfg.prompts.length * cfg.tests.length) := by
  refine ⟨?_, ?_, ?_⟩
  · intro tc e hc
    cases h1 : env.loadPrompt tc.promptFile with
    | error e1 =>
      refine ⟨by simp [runSingleTest, h1], ?_, by simp [runSingleTest, h1]⟩
      simp only [runSingleTest, h1]
      exact append_left_ne_empty _ _ (by decide)
    | ok prompt =>
      cases h2 : env.render prompt tc.vars with
      | error e2 =>
        refine ⟨by simp [runSingleTest, h1, h2], ?_,
          by simp [runSingleTest, h1, h2]⟩
        simp only [runSingleTest, h1, h2]
        exact append_left_ne_empty _ _ (by decide)
      | ok renderedPrompt =>
        cases h3 : getProvider cfg tc.provider with
        | error e3 =>
          refine ⟨by simp [runSingleTest, h1, h2, h3], ?_,
            by simp [runSingleTest, h1, h2, h3]⟩
          simp only [runSingleTest, h1, h2, h3]
          exact append_left_ne_empty _ _ (by decide)
        | ok providerConfig =>
          cases h4 : env.newClient providerConfig with
          | error e4 =>
            refine ⟨by simp [runSingleTest, h1, h2, h3, h4], ?_,
              by simp [runSingleTest, h1, h2, h3, h4]⟩
            simp only [runSingleTest, h1, h2, h3, h4]
            exact append_left_ne_empty _ _ (by decide)
          | ok client =>
            cases h5 : env.complete client renderedPrompt with
            | error e5 =>
              refine ⟨by simp [runSingleTest, h1, h2, h3, h4, h5], ?_,
                by simp [runSingleTest, h1, h2, h3, h4, h5]⟩
              simp only [runSingleTest, h1, h2, h3, h4, h5]
              exact append_left_ne_empty _ _ (by decide)
            | ok resp =>
              exact absurd hc (by simp [completionOf, h1, h2, h3, h4, h5])
  · intro tc resp hc
    cases h1 : env.loadPrompt tc.promptFile with
    | error e1 => exact absurd hc (by simp [completionOf, h1])
    | ok prompt =>
      cases h2 : env.render prompt tc.vars with
      | error e2 => exact absurd hc (by simp [completionOf, h1, h2])
      | ok renderedPrompt =>
        cases h3 : getProvider cfg tc.provider with
        | error e3 => exact absurd hc (by simp [completionOf, h1, h2, h3])
        | ok providerConfig =>
          cases h4 : env.newClient providerConfig with
          | error e4 =>
            exact absurd hc (by simp [completionOf, h1, h2, h3, h4])
          | ok client =>
            cases h5 : env.complete client renderedPrompt with
            | error e5 =>
              exact absurd hc (by simp [completionOf, h1, h2, h3, h4, h5])
            | ok resp2 =>
              have hresp : resp2 = resp := by
                have := hc
                simp [completionOf, h1, h2, h3, h4, h5] at this
                exact this
              subst hresp
              exact ⟨by simp [runSingleTest, h1, h2, h3, h4, h5],
                by simp [runSingleTest, h1, h2, h3, h4, h5],
                by simp [runSingleTest, h1, h2, h3, h4, h5]⟩
  · intro opts res h
    obtain ⟨order, arrival, hord, _, harr, heq⟩ := h
    subst heq
    simp only [runResultOf]
    rw [aggregateLoop_testResults,
      show (initResults (testCasesOf cfg opts order).length opts
          env.now).testResults = [] from rfl]
    simp only [List.nil_append]
    rw [harr.length_eq, List.length_map, testCasesOf_length,
      hord.length_eq]

/-- C3 witness: `c3_thm` in the environment whose rendering fails —
the concrete case comes back failed, with a populated error, no
assertions evaluated, and the run still yields one result for its one
case. -/
theorem c3_witness :
    ((runSingleTest witnessEnv witnessConfig
        (mkTestCase witnessConfig "p.prompt" 0
          { name := "t1", description := "", vars := [], assert := []
            provider := "" })).status = "failed"
      ∧ ¬ (runSingleTest witnessEnv witnessConfig
          (mkTestCase witnessConfig "p.prompt" 0
            { name := "t1", description := "", vars := [], assert := []
              provider := "" })).error = ""
      ∧ (runSingleTest witnessEnv witnessConfig
          (mkTestCase witnessConfig "p.prompt" 0
            { name := "t1", description := "", vars := [], assert := []
              provider := "" })).assertions = [])
    ∧ witnessRunResult.testResults.length
        = witnessConfig.prompts.length * witnessConfig.tests.length :=
  ⟨(c3_thm witnessEnv witnessConfig).1 _ "render boom" rfl,
   (c3_thm witnessEnv witnessConfig).2.2 witnessOptions witnessRunResult
     ⟨["p.prompt"], witnessArrival, List.Perm.refl _,
      fun _ _ => ⟨{ content := "c" }, rfl⟩, List.Perm.refl _, rfl⟩⟩

/-- Updating one slot exchanges its contribution to a `countP`. -/
theorem countP_set_balance (q : TaskPhase → Bool) :
    ∀ (s : List TaskPhase) (i : Nat) (v : TaskPhase) (h : i < s.length),
      (s.set i v).countP q + (if q (s.get ⟨i, h⟩) then 1 else 0)
        = s.countP q + (if q v then 1 else 0)
  | [], i, v, h => by simp at h
  | a :: rest, 0, v, h => by
    simp only [List.set_cons_zero, List.countP_cons, List.get]
    by_cases hqa : q a <;> by_cases hqv : q v <;> simp [hqa, hqv] <;> omega
  | a :: rest, Nat.succ i, v, h => by
    have hr : i < rest.length := by simpa using h
    have hb := countP_set_balance q rest i v hr
    simp only [List.get_eq_getElem] at hb
    simp only [List.set_cons_succ, List.countP_cons, List.get]
    by_cases hqa : q a <;> simp [hqa, List.get_eq_getElem] <;> omega

/-- No goroutine holds a slot in the initial pool state. -/
theorem runningCount_replicate_started (n : Nat) :
    runningCount (List.replicate n TaskPhase.started) = 0 := by
  induction n with
  | zero => rfl
  | succ n ih =>
    simp only [List.replicate_succ, runningCount, List.countP_cons] at ih ⊢
    simp [ih]

/-- The semaphore invariant: in every reachable pool state at most
`limit` goroutines hold a slot. -/
theorem poolReachable_le (env : Env) (cfg : Config) (limit : Nat)
    (tcs : List TestCase) (s : PoolState)
    (h : PoolReachable env cfg limit tcs s) :
    runningCount s.phases ≤ limit := by
  induction h with
  | init =>
    rw [runningCount_replicate_started]
    exact Nat.zero_le limit
  | step s t hs hstep ih =>
    cases hstep with
    | acquire i hi hp hslot =>
      have hb := countP_set_balance (fun p => p == TaskPhase.running)
        s.phases i TaskPhase.running hi
      rw [hp] at hb
      simp only [runningCount] at ih hslot ⊢
      simp only [show (TaskPhase.started == TaskPhase.running) = false from rfl,
        show (TaskPhase.running == TaskPhase.running) = true from rfl,
        if_false, if_true, Bool.false_eq_true, Bool.true_eq_false] at hb
      omega
    | finish i hi hp hic =>
      have hb := countP_set_balance (fun p => p == TaskPhase.running)
        s.phases i TaskPhase.done hi
      rw [hp] at hb
      simp only [runningCount] at ih ⊢
      simp only [show (TaskPhase.done == TaskPhase.running) = false from rfl,
        show (TaskPhase.running == TaskPhase.running) = true from rfl,
        if_false, if_true, Bool.false_eq_true, Bool.true_eq_false] at hb
      omega

/-- C2: for any concurrency limit `Parallel ≥ 1`, in every reachable
state of the worker pool at most `Parallel` `runSingleTest` executions
hold a semaphore slot; a launched goroutine can acquire a slot exactly
when one is free — when the pool is full the send blocks (no acquire
transition exists), and as soon as a slot is free the acquire transition
is enabled; and a running goroutine can always finish — sending its
result (whatever its status, including failures) and releasing its
slot. -/
theorem c2_thm (env : Env) (cfg : Config) (limit : Nat)
    (tcs : List TestCase) (hlim : 1 ≤ limit) (s : PoolState)
    (hreach : PoolReachable env cfg limit tcs s) :
    runningCount s.phases ≤ limit
    ∧ (∀ i (hi : i < s.phases.length),
        s.phases.get ⟨i, hi⟩ = TaskPhase.started →
        ¬ runningCount s.phases < limit →
        ¬ PoolStep env cfg limit tcs s
            { phases := s.phases.set i TaskPhase.running, sent := s.sent })
    ∧ (∀ i (hi : i < s.phases.length),
        s.phases.get ⟨i, hi⟩ = TaskPhase.started →
        runningCount s.phases < limit →
        PoolStep env cfg limit tcs s
          { phases := s.phases.set i TaskPhase.running, sent := s.sent })
    ∧ (∀ i (hi : i < s.phases.length) (hic : i < tcs.length),
        s.phases.get ⟨i, hi⟩ = TaskPhase.running →
        PoolStep env cfg limit tcs s
          { phases := s.phases.set i TaskPhase.done
            sent := s.sent ++ [runSingleTest env cfg (tcs.get ⟨i, hic⟩)] }) := by
  refine ⟨poolReachable_le env cfg limit tcs s hreach, ?_, ?_, ?_⟩
  · intro i hi hstarted hfull hstep
    generalize ht :
      ({ phases := s.phases.set i TaskPhase.running, sent := s.sent }
        : PoolState) = t at hstep
    cases hstep with
    | acquire j hj hp hslot => exact hfull hslot
    | finish j hj hp hic =>
      have hsent := congrArg (fun st : PoolState => st.sent.length) ht
      simp at hsent
  · intro i hi hstarted hfree
    exact PoolStep.acquire s i hi hstarted hfree
  · intro i hi hic hrunning
    exact PoolStep.finish s i hi hrunning hic

/-- A minimal test case for exercising the pool model. -/
def poolCaseA : TestCase :=
  { name := "a", promptFile := "p", provider := "", vars := [], test := {} }

/-- The pool state after one goroutine of two has acquired the only
slot. -/
def poolS1 : PoolState :=
  { phases := (List.replicate 2 TaskPhase.started).set 0 TaskPhase.running
    sent := [] }

/-- C2 witness: `c2_thm` with limit 1 over two cases, at the
reachable state in which one goroutine holds the slot — its hypotheses
(`1 ≤ limit` and reachability) discharged concretely: at most one call
is in flight. -/
theorem c2_witness : runningCount poolS1.phases ≤ 1 :=
  (c2_thm witnessEnv witnessConfig 1 [poolCaseA, poolCaseA] (by decide)
    poolS1
    (PoolReachable.step _ _ PoolReachable.init
      (PoolStep.acquire _ 0 (by decide) (by decide) (by decide)))).1
